import Mathlib

/-!
Verification of the Modbus-TCP-to-AWS-IoT telemetry bridge.

The development shallowly embeds the two Python source files:
`tcp.py` (configuration parsing, polling loop, MQTT publishing) and
`ip.py` (one-shot device sweep).  Python strings are modelled as
`List Char`; the external world (Modbus devices, the TCP network and the
MQTT channel) is modelled as an oracle `Net` supplying, for each device
and request, the response or fault the outside world produces.  The
polling loop is given a trace semantics: running one sweep produces the
ordered list of externally visible actions (connect attempts, issued
read requests, publish attempts, session closes).
-/

/-! ## Python string primitives

Executable models of the Python string operations used by the
configuration parser: `str.split` with a one-character separator
(keeps empty fields), `str.strip` (removes surrounding whitespace),
`str.isdigit` (nonempty and all digits) and `int` on a digit string. -/

/-- Python `s.split(sep)` for a single-character separator: every
occurrence of `sep` separates two fields, empty fields are kept, and
the empty string yields one empty field. -/
def pySplit (sep : Char) : List Char → List (List Char)
  | [] => [[]]
  | c :: cs =>
    match pySplit sep cs with
    | [] => [[]]
    | r :: rs => if c = sep then [] :: r :: rs else (c :: r) :: rs

/-- Python `s.strip()`: remove whitespace from both ends. -/
def pyStrip (s : List Char) : List Char :=
  ((s.dropWhile Char.isWhitespace).reverse.dropWhile Char.isWhitespace).reverse

/-- Python `s.isdigit()`: nonempty and every character a digit. -/
def pyIsDigitStr (s : List Char) : Bool :=
  !s.isEmpty && s.all Char.isDigit

/-- Python `int(s)` on a digit string: decimal value. -/
def pyInt (s : List Char) : Nat :=
  s.foldl (fun n c => 10 * n + (c.toNat - 48)) 0

/-! ## Data model -/

/-- One contiguous register range to fetch: the dict
`{"address": ..., "count": ...}` built by `load_plcs_from_config`
(tcp.py line 66). -/
structure ReadSpec where
  address : Nat
  count : Nat
deriving DecidableEq

/-- One device record: the dict built by `load_plcs_from_config`
(tcp.py lines 67-72) and the entries of `DEVICES` in ip.py. -/
structure PLC where
  name : String
  ip : String
  port : Nat
  reads : List ReadSpec
deriving DecidableEq

/-! ## Configuration parsing (tcp.py, `load_plcs_from_config`) -/

/-- The body of the query-parsing loop of `load_plcs_from_config`
(tcp.py lines 61-66) for one semicolon-separated entry `q`:
skip a whitespace-only entry; split the stripped entry on commas;
keep it only when there are exactly two fields and both are digit
strings. -/
def parseQueryEntry (q : List Char) : Option ReadSpec :=
  if (pyStrip q).isEmpty then none
  else
    match pySplit ',' (pyStrip q) with
    | [a, c] =>
      if pyIsDigitStr a && pyIsDigitStr c then some ⟨pyInt a, pyInt c⟩ else none
    | _ => none

/-- The query-parsing loop of `load_plcs_from_config` (tcp.py lines
60-66): fold over the semicolon-separated entries, appending each kept
entry to the accumulated `reads` list. -/
def parseQueries (queries_raw : List Char) : List ReadSpec :=
  (pySplit ';' queries_raw).foldl
    (fun reads q =>
      match parseQueryEntry q with
      | some spec => reads ++ [spec]
      | none => reads)
    []

/-- One section of the parsed INI file as `load_plcs_from_config`
consumes it: the section header name and the `name`, `ip`, `port` and
`queries` keys.  `port` and `queries` are optional (tcp.py reads them
with `.get` and defaults 502 resp. `""`); `name` and `ip` are accessed
unconditionally.  The `int(...)` conversion of `port` is modelled as
already performed. -/
structure ConfigSection where
  sectionName : String
  name : String
  ip : String
  port : Option Nat
  queries : Option (List Char)

/-- tcp.py `load_plcs_from_config` (lines 54-74): every section other
than `AWS` becomes one device record, in section order, with its
parsed `reads` list. -/
def load_plcs_from_config (sections : List ConfigSection) : List PLC :=
  sections.foldl
    (fun plcs s =>
      if s.sectionName ≠ "AWS" then
        plcs ++ [{ name := s.name, ip := s.ip, port := s.port.getD 502,
                   reads := parseQueries (s.queries.getD []) }]
      else plcs)
    []

/-! ## Device responses and the Register Reader -/

/-- Outcome of one `client.read_holding_registers(address, count)` call
as the Python code distinguishes them: a normal response
(`isError()` false) carrying the register values; an error response
(`isError()` true), carrying its printed form and its
`exception_code` attribute; a raised `ModbusException`; or any other
raised exception. -/
inductive ClientResp where
  | normal (registers : List Nat)
  | errorResp (rendered : String) (exCode : String)
  | modbusExn (msg : String)
  | otherExn (msg : String)
deriving DecidableEq

/-- One element of the `results` list of `read_holding_registers`: the
tuple `(address, values, error)` where exactly one of `values` and
`error` is present. -/
structure ReadResult where
  address : Nat
  values : Option (List Nat)
  error : Option String
deriving DecidableEq

namespace Tcp

/-- The loop body of tcp.py `read_holding_registers` (lines 82-91) for
one spec: classify the client response into the appended result
tuple. -/
def classifyResp (address : Nat) : ClientResp → ReadResult
  | .normal regs => ⟨address, some regs, none⟩
  | .errorResp rendered _ => ⟨address, none, some ("Error: " ++ rendered)⟩
  | .modbusExn m => ⟨address, none, some ("Modbus Error: " ++ m)⟩
  | .otherExn m => ⟨address, none, some ("Error: " ++ m)⟩

/-- tcp.py `read_holding_registers` (lines 77-92), instrumented: besides
the `results` list it returns the list of `(address, count)` requests
issued to the client, in issue order (line 83 issues exactly one
request per loop iteration). -/
def read_holding_registersT (client : Nat → Nat → ClientResp) :
    List ReadSpec → List (Nat × Nat) × List ReadResult
  | [] => ([], [])
  | item :: rest =>
    let r := classifyResp item.address (client item.address item.count)
    let rec_ := read_holding_registersT client rest
    ((item.address, item.count) :: rec_.1, r :: rec_.2)

/-- tcp.py `read_holding_registers`: the `results` list. -/
def read_holding_registers (client : Nat → Nat → ClientResp)
    (reads : List ReadSpec) : List ReadResult :=
  (read_holding_registersT client reads).2

end Tcp

namespace Ip

/-- The loop body of ip.py `read_holding_registers` (lines 38-52) for
one spec.  The inner `try/except TypeError` (lines 39-42) is a
calling-convention shim — both branches issue the same logical request
— so the client is modelled as one call.  An error response is
reported through its `exception_code` attribute (line 45). -/
def classifyResp (address : Nat) : ClientResp → ReadResult
  | .normal regs => ⟨address, some regs, none⟩
  | .errorResp _ exCode => ⟨address, none, some ("Modbus Exception Code: " ++ exCode)⟩
  | .modbusExn m => ⟨address, none, some ("Modbus Error: " ++ m)⟩
  | .otherExn m => ⟨address, none, some ("Error: " ++ m)⟩

/-- ip.py `read_holding_registers` (lines 33-53), instrumented with the
list of issued `(address, count)` requests. -/
def read_holding_registersT (client : Nat → Nat → ClientResp) :
    List ReadSpec → List (Nat × Nat) × List ReadResult
  | [] => ([], [])
  | item :: rest =>
    let r := classifyResp item.address (client item.address item.count)
    let rec_ := read_holding_registersT client rest
    ((item.address, item.count) :: rec_.1, r :: rec_.2)

/-- ip.py `read_holding_registers`: the `results` list. -/
def read_holding_registers (client : Nat → Nat → ClientResp)
    (reads : List ReadSpec) : List ReadResult :=
  (read_holding_registersT client reads).2

end Ip

/-! ## Telemetry payload (tcp.py, `publish_to_aws`) -/

/-- The JSON payload dict built by `publish_to_aws` (tcp.py lines
96-101): exactly the four keys `timestamp`, `plc_name`,
`register_address` and `value`. -/
structure Payload where
  timestamp : Nat
  plc_name : String
  register_address : Nat
  value : List Nat
deriving DecidableEq

/-- `publish_to_aws` payload construction (tcp.py lines 96-101), with
`int(time.time() * 1000)` supplied as the `nowMs` parameter. -/
def publish_to_aws_payload (nowMs : Nat) (plc_name : String)
    (address : Nat) (value : List Nat) : Payload :=
  { timestamp := nowMs, plc_name := plc_name,
    register_address := address, value := value }

/-! ## The outside world and the trace semantics of a sweep -/

/-- Oracle for everything outside the program: whether a TCP connect to
a given host/port succeeds, how the device behind a host/port answers
a `(address, count)` read request, and whether the MQTT publish call
raises for a given message. -/
structure Net where
  connectOk : String → Nat → Bool
  devResp : String → Nat → Nat → Nat → ClientResp
  publishRaises : String → Nat → List Nat → Bool

/-- Externally visible actions of the polling loop, in program order:
a connect attempt (with its outcome), an issued read-holding-registers
request, an outbound publish attempt (with whether the channel call
raised), and a socket close. -/
inductive Event where
  | connectEv (name : String) (ok : Bool)
  | readReqEv (name : String) (address : Nat) (count : Nat)
  | publishEv (name : String) (address : Nat) (values : List Nat) (delivered : Bool)
  | closeEv (name : String)
deriving DecidableEq

/-- The per-device body of the tcp.py polling loop (lines 143-161):
connect; on failure log, close and continue; on success run
`read_holding_registers`, then for each result publish exactly the
non-error ones (the `if error` branch at line 154 only logs), then
close.  The trace lists the sockets/channel actions in program
order: the read requests are all issued (inside
`read_holding_registers`) before the publish loop runs. -/
def deviceTrace (net : Net) (plc : PLC) : List Event :=
  if net.connectOk plc.ip plc.port then
    let rr := Tcp.read_holding_registersT (net.devResp plc.ip plc.port) plc.reads
    Event.connectEv plc.name true ::
      (rr.1.map (fun rc => Event.readReqEv plc.name rc.1 rc.2) ++
       rr.2.filterMap (fun r =>
         match r.error, r.values with
         | none, some vs =>
           some (Event.publishEv plc.name r.address vs
                  (!net.publishRaises plc.name r.address vs))
         | _, _ => none) ++
       [Event.closeEv plc.name])
  else
    [Event.connectEv plc.name false, Event.closeEv plc.name]

/-- One sweep of the tcp.py polling loop: the `for plc in PLCS` body
(lines 143-161) run over every device in store order. -/
def sweepTrace (net : Net) (plcs : List PLC) : List Event :=
  (plcs.map (deviceTrace net)).flatten

/-- `n` iterations of the tcp.py `while True` polling loop (lines
142-162). -/
def runSweeps (net : Net) (plcs : List PLC) : Nat → List Event
  | 0 => []
  | n + 1 => sweepTrace net plcs ++ runSweeps net plcs n

/-- ip.py `connect_and_read` (lines 55-82): connect inside
`try/finally`; a failed connect returns early; either way the
`finally` block closes the client.  ip.py only prints results, so the
success branch contributes the issued read requests and the close. -/
def connect_and_readTrace (net : Net) (dev : PLC) : List Event :=
  if net.connectOk dev.ip dev.port then
    let rr := Ip.read_holding_registersT (net.devResp dev.ip dev.port) dev.reads
    Event.connectEv dev.name true ::
      (rr.1.map (fun rc => Event.readReqEv dev.name rc.1 rc.2) ++
       [Event.closeEv dev.name])
  else
    [Event.connectEv dev.name false, Event.closeEv dev.name]

/-! ## Process startup (tcp.py, `__main__`) -/

/-- The exceptions caught by the config-loading `try` block of
`__main__` (tcp.py line 118). -/
inductive ConfigError where
  | fileNotFound (msg : String)
  | keyError (msg : String)
deriving DecidableEq

/-- What a successful configuration phase hands to the polling loop:
the AWS settings (only the topic matters to the loop) and the device
list. -/
structure StartupConfig where
  topic : String
  plcs : List PLC

/-- How a run of tcp.py `__main__` ends, observing `n` loop
iterations: `exited code` for a `sys.exit(code)` before the loop, or
`polling trace` once the loop is entered. -/
inductive RunOutcome where
  | exited (code : Nat)
  | polling (trace : List Event)
deriving DecidableEq

/-- tcp.py `__main__` (lines 109-162): a config-phase exception exits
with code 1 (lines 118-120); then an MQTT connect exception exits with
code 1 (lines 137-139); otherwise the polling loop runs (modelled for
`n` sweeps). -/
def mainRun (cfg : Except ConfigError StartupConfig)
    (mqttConnect : Except String Unit) (net : Net) (n : Nat) : RunOutcome :=
  match cfg with
  | .error _ => .exited 1
  | .ok c =>
    match mqttConnect with
    | .error _ => .exited 1
    | .ok _ => .polling (runSweeps net c.plcs n)

/-! ## Observations on results and traces -/

/-- A result tuple whose `error` slot is set (the Python `if error:`
branch; every error message produced by the code is nonempty, so
truthiness coincides with presence). -/
def isErrResult (r : ReadResult) : Bool :=
  r.error.isSome

/-- A client response that the reader records as a failure: anything
but a normal response. -/
def isFaultResp : ClientResp → Bool
  | .normal _ => false
  | _ => true

/-- Events that neither open nor close a session. -/
def neutralEv : Event → Bool
  | .readReqEv .. => true
  | .publishEv .. => true
  | _ => false

/-- Effect of one event on the number of open device sessions: a
successful connect opens one, a close closes one (closing with nothing
open, as the failed-connect branch does, is a no-op on the count). -/
def openStep (n : Nat) : Event → Nat
  | .connectEv _ true => n + 1
  | .closeEv _ => n - 1
  | _ => n

/-- Number of open sessions after a trace, starting from `n`. -/
def openAfter (n : Nat) (es : List Event) : Nat :=
  es.foldl openStep n

/-- Largest number of simultaneously open sessions at any point along a
trace, starting from `n` open. -/
def maxOpen (n : Nat) : List Event → Nat
  | [] => n
  | e :: es => max n (maxOpen (openStep n e) es)

/-- The publish attempts of a trace, in order, as
`(device name, address, values)`. -/
def publishesOf (tr : List Event) : List (String × Nat × List Nat) :=
  tr.filterMap (fun e =>
    match e with
    | .publishEv nm a vs _ => some (nm, a, vs)
    | _ => none)

/-- The read requests of a trace, in order, as
`(device name, address, count)`. -/
def readReqsOf (tr : List Event) : List (String × Nat × Nat) :=
  tr.filterMap (fun e =>
    match e with
    | .readReqEv nm a c => some (nm, a, c)
    | _ => none)

/-- The device names of the connect attempts of a trace, in order. -/
def connectsOf (tr : List Event) : List String :=
  tr.filterMap (fun e =>
    match e with
    | .connectEv nm _ => some nm
    | _ => none)

/-- The successful `(address, values)` pairs of a result list, in
order: exactly the results the publish loop forwards. -/
def okResults (results : List ReadResult) : List (Nat × List Nat) :=
  results.filterMap (fun r =>
    match r.error, r.values with
    | none, some vs => some (r.address, vs)
    | _, _ => none)

/-- The telemetry messages a sweep hands to the outbound channel, in
hand-off order, with the clock fixed at `nowMs`. -/
def sweepMessages (nowMs : Nat) (net : Net) (plcs : List PLC) : List Payload :=
  (publishesOf (sweepTrace net plcs)).map
    (fun nav => publish_to_aws_payload nowMs nav.1 nav.2.1 nav.2.2)

/-! ## Serialization of query lists

Modelled from the spec: the repository has no serializer for query
lists; the spec's round-trip property re-serializes a parsed list as
semicolon-separated `address,count` pairs. -/

/-- Decimal digits of a natural number. -/
def natToChars (n : Nat) : List Char :=
  Nat.toDigits 10 n

/-- Modelled from the spec: re-serialize a list of read specifications
as semicolon-separated `address,count` pairs. -/
def serializeQueries (specs : List ReadSpec) : List Char :=
  List.intercalate [';']
    (specs.map (fun s => natToChars s.address ++ ',' :: natToChars s.count))

/-! ## Concrete fixtures -/

/-- The device of the spec's publishing scenario: `"A"` at
`10.0.0.5:502` with one read of two registers at address 0. -/
def plcA : PLC :=
  { name := "A", ip := "10.0.0.5", port := 502, reads := [⟨0, 2⟩] }

/-- A world in which every connect succeeds, every read returns
registers `[7, 42]` and publishing never raises. -/
def netA : Net :=
  { connectOk := fun _ _ => true,
    devResp := fun _ _ _ _ => .normal [7, 42],
    publishRaises := fun _ _ _ => false }

/-- A world in which no device is reachable. -/
def netNone : Net :=
  { connectOk := fun _ _ => false,
    devResp := fun _ _ _ _ => .otherExn "unreachable",
    publishRaises := fun _ _ _ => true }

/-- A client that faults at address 1 and answers `[5]` elsewhere. -/
def clientFault1 : Nat → Nat → ClientResp :=
  fun a _ => if a = 1 then .modbusExn "timeout" else .normal [5]

/-- A startup configuration with one device. -/
def startupA : StartupConfig :=
  { topic := "plc/telemetry", plcs := [plcA] }

/-- A device with an empty `reads` list. -/
def plcE : PLC :=
  { name := "E", ip := "10.0.0.7", port := 502, reads := [] }

/-! ## Helper lemmas -/

theorem parseQueries_go (l : List (List Char)) (acc : List ReadSpec) :
    l.foldl
      (fun reads q =>
        match parseQueryEntry q with
        | some spec => reads ++ [spec]
        | none => reads)
      acc
      = acc ++ l.filterMap parseQueryEntry := by
  induction l generalizing acc with
  | nil => simp
  | cons a l ih => cases h : parseQueryEntry a <;> simp [List.filterMap_cons, h, ih]

theorem parseQueries_eq_filterMap (q : List Char) :
    parseQueries q = (pySplit ';' q).filterMap parseQueryEntry := by
  unfold parseQueries
  simpa using parseQueries_go (pySplit ';' q) []

theorem tcp_readT_eq (client : Nat → Nat → ClientResp) (specs : List ReadSpec) :
    Tcp.read_holding_registersT client specs =
      (specs.map (fun s => (s.address, s.count)),
       specs.map (fun s => Tcp.classifyResp s.address (client s.address s.count))) := by
  induction specs with
  | nil => rfl
  | cons s specs ih => simp [Tcp.read_holding_registersT, ih]

theorem ip_readT_eq (client : Nat → Nat → ClientResp) (specs : List ReadSpec) :
    Ip.read_holding_registersT client specs =
      (specs.map (fun s => (s.address, s.count)),
       specs.map (fun s => Ip.classifyResp s.address (client s.address s.count))) := by
  induction specs with
  | nil => rfl
  | cons s specs ih => simp [Ip.read_holding_registersT, ih]

theorem tcp_read_eq (client : Nat → Nat → ClientResp) (specs : List ReadSpec) :
    Tcp.read_holding_registers client specs =
      specs.map (fun s => Tcp.classifyResp s.address (client s.address s.count)) := by
  simp [Tcp.read_holding_registers, tcp_readT_eq]

theorem ip_read_eq (client : Nat → Nat → ClientResp) (specs : List ReadSpec) :
    Ip.read_holding_registers client specs =
      specs.map (fun s => Ip.classifyResp s.address (client s.address s.count)) := by
  simp [Ip.read_holding_registers, ip_readT_eq]

theorem tcp_classify_address (a : Nat) (resp : ClientResp) :
    (Tcp.classifyResp a resp).address = a := by
  cases resp <;> rfl

theorem ip_classify_address (a : Nat) (resp : ClientResp) :
    (Ip.classifyResp a resp).address = a := by
  cases resp <;> rfl

theorem tcp_classify_isErr (a : Nat) (resp : ClientResp) :
    isErrResult (Tcp.classifyResp a resp) = isFaultResp resp := by
  cases resp <;> rfl

theorem ip_classify_isErr (a : Nat) (resp : ClientResp) :
    isErrResult (Ip.classifyResp a resp) = isFaultResp resp := by
  cases resp <;> rfl

theorem openAfter_append (n : Nat) (a b : List Event) :
    openAfter n (a ++ b) = openAfter (openAfter n a) b := by
  simp [openAfter, List.foldl_append]

theorem maxOpen_ge (n : Nat) (l : List Event) : n ≤ maxOpen n l := by
  induction l generalizing n with
  | nil => exact Nat.le_refl n
  | cons e l ih => exact Nat.le_max_left _ _

theorem maxOpen_append (n : Nat) (a b : List Event) :
    maxOpen n (a ++ b) = max (maxOpen n a) (maxOpen (openAfter n a) b) := by
  induction a generalizing n with
  | nil =>
    simp [maxOpen, openAfter]
    exact maxOpen_ge n b
  | cons e a ih =>
    simp [maxOpen, openAfter, List.foldl_cons, ih, Nat.max_assoc]

theorem openStep_neutral {e : Event} (h : neutralEv e = true) (n : Nat) :
    openStep n e = n := by
  cases e with
  | connectEv nm ok => simp [neutralEv] at h
  | closeEv nm => simp [neutralEv] at h
  | readReqEv nm a c => rfl
  | publishEv nm a vs d => rfl

theorem openAfter_neutral {l : List Event} (h : ∀ e ∈ l, neutralEv e = true)
    (n : Nat) : openAfter n l = n := by
  induction l generalizing n with
  | nil => rfl
  | cons e l ih =>
    have he := h e (List.mem_cons_self e l)
    have hl : ∀ e ∈ l, neutralEv e = true := fun x hx => h x (List.mem_cons_of_mem e hx)
    simp [openAfter, List.foldl_cons, openStep_neutral he]
    exact ih hl n

theorem maxOpen_neutral {l : List Event} (h : ∀ e ∈ l, neutralEv e = true)
    (n : Nat) : maxOpen n l = n := by
  induction l generalizing n with
  | nil => rfl
  | cons e l ih =>
    have he := h e (List.mem_cons_self e l)
    have hl : ∀ e ∈ l, neutralEv e = true := fun x hx => h x (List.mem_cons_of_mem e hx)
    simp [maxOpen, openStep_neutral he, ih hl]

theorem readReq_map_neutral (nm : String) (reqs : List (Nat × Nat)) :
    ∀ e ∈ reqs.map (fun rc => Event.readReqEv nm rc.1 rc.2), neutralEv e = true := by
  intro e he
  rcases List.mem_map.mp he with ⟨rc, _, rfl⟩
  rfl

theorem publish_filterMap_neutral (net : Net) (nm : String)
    (results : List ReadResult) :
    ∀ e ∈ results.filterMap (fun r =>
        match r.error, r.values with
        | none, some vs =>
          some (Event.publishEv nm r.address vs (!net.publishRaises nm r.address vs))
        | _, _ => none),
      neutralEv e = true := by
  intro e he
  rcases List.mem_filterMap.mp he with ⟨r, _, hr⟩
  cases herr : r.error with
  | some s => rw [herr] at hr; simp at hr
  | none =>
    cases hv : r.values with
    | none => rw [herr, hv] at hr; simp at hr
    | some vs =>
      rw [herr, hv] at hr
      simp at hr
      rw [← hr]
      rfl

theorem deviceTrace_connected (net : Net) (plc : PLC)
    (h : net.connectOk plc.ip plc.port = true) :
    deviceTrace net plc =
      Event.connectEv plc.name true ::
        ((Tcp.read_holding_registersT (net.devResp plc.ip plc.port) plc.reads).1.map
            (fun rc => Event.readReqEv plc.name rc.1 rc.2) ++
         ((Tcp.read_holding_registersT (net.devResp plc.ip plc.port) plc.reads).2.filterMap
            (fun r =>
              match r.error, r.values with
              | none, some vs =>
                some (Event.publishEv plc.name r.address vs
                       (!net.publishRaises plc.name r.address vs))
              | _, _ => none) ++
          [Event.closeEv plc.name])) := by
  simp [deviceTrace, h]

theorem deviceTrace_disconnected (net : Net) (plc : PLC)
    (h : net.connectOk plc.ip plc.port = false) :
    deviceTrace net plc =
      [Event.connectEv plc.name false, Event.closeEv plc.name] := by
  simp [deviceTrace, h]

theorem openAfter_block (nm : String) (A B : List Event)
    (hA : ∀ e ∈ A, neutralEv e = true) (hB : ∀ e ∈ B, neutralEv e = true) :
    openAfter 0 (Event.connectEv nm true :: (A ++ (B ++ [Event.closeEv nm]))) = 0 := by
  have h1 : openAfter 0 (Event.connectEv nm true :: (A ++ (B ++ [Event.closeEv nm])))
      = openAfter 1 (A ++ (B ++ [Event.closeEv nm])) := rfl
  rw [h1, openAfter_append, openAfter_neutral hA, openAfter_append,
    openAfter_neutral hB]
  rfl

theorem maxOpen_block (nm : String) (A B : List Event)
    (hA : ∀ e ∈ A, neutralEv e = true) (hB : ∀ e ∈ B, neutralEv e = true) :
    maxOpen 0 (Event.connectEv nm true :: (A ++ (B ++ [Event.closeEv nm]))) = 1 := by
  have h1 : maxOpen 0 (Event.connectEv nm true :: (A ++ (B ++ [Event.closeEv nm])))
      = max 0 (maxOpen 1 (A ++ (B ++ [Event.closeEv nm]))) := rfl
  rw [h1, maxOpen_append, maxOpen_neutral hA, openAfter_neutral hA,
    maxOpen_append, maxOpen_neutral hB, openAfter_neutral hB]
  rfl

theorem openAfter_deviceTrace (net : Net) (plc : PLC) :
    openAfter 0 (deviceTrace net plc) = 0 := by
  by_cases h : net.connectOk plc.ip plc.port
  · rw [deviceTrace_connected net plc h]
    exact openAfter_block plc.name _ _
      (readReq_map_neutral plc.name _) (publish_filterMap_neutral net plc.name _)
  · rw [deviceTrace_disconnected net plc (by simpa using h)]
    rfl

theorem maxOpen_deviceTrace (net : Net) (plc : PLC) :
    maxOpen 0 (deviceTrace net plc) ≤ 1 := by
  by_cases h : net.connectOk plc.ip plc.port
  · rw [deviceTrace_connected net plc h]
    rw [maxOpen_block plc.name _ _
      (readReq_map_neutral plc.name _) (publish_filterMap_neutral net plc.name _)]
  · rw [deviceTrace_disconnected net plc (by simpa using h)]
    exact Nat.zero_le 1

theorem sweepTrace_cons (net : Net) (p : PLC) (ps : List PLC) :
    sweepTrace net (p :: ps) = deviceTrace net p ++ sweepTrace net ps := by
  simp [sweepTrace]

theorem openAfter_sweepTrace (net : Net) (plcs : List PLC) :
    openAfter 0 (sweepTrace net plcs) = 0 := by
  induction plcs with
  | nil => rfl
  | cons p ps ih =>
    rw [sweepTrace_cons, openAfter_append, openAfter_deviceTrace]
    exact ih

theorem maxOpen_sweepTrace (net : Net) (plcs : List PLC) :
    maxOpen 0 (sweepTrace net plcs) ≤ 1 := by
  induction plcs with
  | nil => exact Nat.zero_le 1
  | cons p ps ih =>
    rw [sweepTrace_cons, maxOpen_append, openAfter_deviceTrace]
    exact Nat.max_le.mpr ⟨maxOpen_deviceTrace net p, ih⟩

theorem openAfter_runSweeps (net : Net) (plcs : List PLC) (n : Nat) :
    openAfter 0 (runSweeps net plcs n) = 0 := by
  induction n with
  | zero => rfl
  | succ n ih =>
    rw [runSweeps, openAfter_append, openAfter_sweepTrace]
    exact ih

theorem maxOpen_runSweeps (net : Net) (plcs : List PLC) (n : Nat) :
    maxOpen 0 (runSweeps net plcs n) ≤ 1 := by
  induction n with
  | zero => exact Nat.zero_le 1
  | succ n ih =>
    rw [runSweeps, maxOpen_append, openAfter_sweepTrace]
    exact Nat.max_le.mpr ⟨maxOpen_sweepTrace net plcs, ih⟩

theorem publishesOf_append (a b : List Event) :
    publishesOf (a ++ b) = publishesOf a ++ publishesOf b := by
  simp [publishesOf, List.filterMap_append]

theorem readReqsOf_append (a b : List Event) :
    readReqsOf (a ++ b) = readReqsOf a ++ readReqsOf b := by
  simp [readReqsOf, List.filterMap_append]

theorem connectsOf_append (a b : List Event) :
    connectsOf (a ++ b) = connectsOf a ++ connectsOf b := by
  simp [connectsOf, List.filterMap_append]

theorem publishesOf_readReqs (nm : String) (reqs : List (Nat × Nat)) :
    publishesOf (reqs.map (fun rc => Event.readReqEv nm rc.1 rc.2)) = [] := by
  refine List.filterMap_eq_nil_iff.mpr ?_
  intro e he
  rcases List.mem_map.mp he with ⟨rc, _, rfl⟩
  rfl

theorem connectsOf_readReqs (nm : String) (reqs : List (Nat × Nat)) :
    connectsOf (reqs.map (fun rc => Event.readReqEv nm rc.1 rc.2)) = [] := by
  refine List.filterMap_eq_nil_iff.mpr ?_
  intro e he
  rcases List.mem_map.mp he with ⟨rc, _, rfl⟩
  rfl

theorem readReqsOf_readReqs (nm : String) (reqs : List (Nat × Nat)) :
    readReqsOf (reqs.map (fun rc => Event.readReqEv nm rc.1 rc.2)) =
      reqs.map (fun rc => (nm, rc.1, rc.2)) := by
  induction reqs with
  | nil => rfl
  | cons rc reqs ih =>
    simpa [readReqsOf, List.filterMap_cons] using ih

theorem publishesOf_pubEvents (net : Net) (nm : String) (results : List ReadResult) :
    publishesOf (results.filterMap (fun r =>
        match r.error, r.values with
        | none, some vs =>
          some (Event.publishEv nm r.address vs (!net.publishRaises nm r.address vs))
        | _, _ => none)) =
      (okResults results).map (fun av => (nm, av.1, av.2)) := by
  induction results with
  | nil => rfl
  | cons r results ih =>
    cases herr : r.error with
    | some s =>
      simp [okResults, List.filterMap_cons, herr] at ih ⊢
      simpa [okResults] using ih
    | none =>
      cases hv : r.values with
      | none =>
        simp [okResults, List.filterMap_cons, herr, hv] at ih ⊢
        simpa [okResults] using ih
      | some vs =>
        simp [okResults, publishesOf, List.filterMap_cons, herr, hv] at ih ⊢
        simpa [okResults, publishesOf] using ih

theorem readReqsOf_pubEvents (net : Net) (nm : String) (results : List ReadResult) :
    readReqsOf (results.filterMap (fun r =>
        match r.error, r.values with
        | none, some vs =>
          some (Event.publishEv nm r.address vs (!net.publishRaises nm r.address vs))
        | _, _ => none)) = [] := by
  refine List.filterMap_eq_nil_iff.mpr ?_
  intro e he
  have hn := publish_filterMap_neutral net nm results e he
  cases e with
  | connectEv nm2 ok => simp [neutralEv] at hn
  | closeEv nm2 => simp [neutralEv] at hn
  | readReqEv nm2 a c =>
    rcases List.mem_filterMap.mp he with ⟨r, _, hr⟩
    cases h1 : r.error <;> cases h2 : r.values <;> rw [h1, h2] at hr <;> simp at hr
  | publishEv nm2 a vs d => rfl

theorem connectsOf_pubEvents (net : Net) (nm : String) (results : List ReadResult) :
    connectsOf (results.filterMap (fun r =>
        match r.error, r.values with
        | none, some vs =>
          some (Event.publishEv nm r.address vs (!net.publishRaises nm r.address vs))
        | _, _ => none)) = [] := by
  refine List.filterMap_eq_nil_iff.mpr ?_
  intro e he
  rcases List.mem_filterMap.mp he with ⟨r, _, hr⟩
  cases h1 : r.error <;> cases h2 : r.values <;> rw [h1, h2] at hr <;> simp at hr
  rw [← hr]

theorem publishesOf_connect_cons (nm : String) (ok : Bool) (l : List Event) :
    publishesOf (Event.connectEv nm ok :: l) = publishesOf l := rfl

theorem publishesOf_close (nm : String) :
    publishesOf [Event.closeEv nm] = [] := rfl

theorem connectsOf_connect_cons (nm : String) (ok : Bool) (l : List Event) :
    connectsOf (Event.connectEv nm ok :: l) = nm :: connectsOf l := rfl

theorem connectsOf_close (nm : String) :
    connectsOf [Event.closeEv nm] = [] := rfl

theorem readReqsOf_connect_cons (nm : String) (ok : Bool) (l : List Event) :
    readReqsOf (Event.connectEv nm ok :: l) = readReqsOf l := rfl

theorem readReqsOf_close (nm : String) :
    readReqsOf [Event.closeEv nm] = [] := rfl

theorem publishesOf_deviceTrace (net : Net) (plc : PLC) :
    publishesOf (deviceTrace net plc) =
      if net.connectOk plc.ip plc.port then
        (okResults (Tcp.read_holding_registers (net.devResp plc.ip plc.port) plc.reads)).map
          (fun av => (plc.name, av.1, av.2))
      else [] := by
  by_cases h : net.connectOk plc.ip plc.port
  · rw [deviceTrace_connected net plc h, if_pos h, publishesOf_connect_cons,
      publishesOf_append, publishesOf_readReqs, publishesOf_append,
      publishesOf_pubEvents, publishesOf_close, List.nil_append, List.append_nil]
    rfl
  · rw [deviceTrace_disconnected net plc (by simpa using h), if_neg h]
    rfl

theorem connectsOf_deviceTrace (net : Net) (plc : PLC) :
    connectsOf (deviceTrace net plc) = [plc.name] := by
  by_cases h : net.connectOk plc.ip plc.port
  · rw [deviceTrace_connected net plc h, connectsOf_connect_cons,
      connectsOf_append, connectsOf_readReqs, connectsOf_append,
      connectsOf_pubEvents, connectsOf_close]
    rfl
  · rw [deviceTrace_disconnected net plc (by simpa using h)]
    rfl

theorem readReqsOf_deviceTrace (net : Net) (plc : PLC) :
    readReqsOf (deviceTrace net plc) =
      if net.connectOk plc.ip plc.port then
        plc.reads.map (fun s => (plc.name, s.address, s.count))
      else [] := by
  by_cases h : net.connectOk plc.ip plc.port
  · rw [deviceTrace_connected net plc h, if_pos h, readReqsOf_connect_cons,
      readReqsOf_append, readReqsOf_readReqs, readReqsOf_append,
      readReqsOf_pubEvents, readReqsOf_close, List.append_nil, tcp_readT_eq,
      List.map_map]
    simp
  · rw [deviceTrace_disconnected net plc (by simpa using h), if_neg h]
    rfl

theorem publishesOf_sweepTrace (net : Net) (plcs : List PLC) :
    publishesOf (sweepTrace net plcs) =
      (plcs.map (fun plc =>
        if net.connectOk plc.ip plc.port then
          (okResults (Tcp.read_holding_registers (net.devResp plc.ip plc.port) plc.reads)).map
            (fun av => (plc.name, av.1, av.2))
        else [])).flatten := by
  induction plcs with
  | nil => rfl
  | cons p ps ih =>
    rw [sweepTrace_cons, publishesOf_append, publishesOf_deviceTrace, ih,
      List.map_cons, List.flatten_cons]

theorem connectsOf_sweepTrace (net : Net) (plcs : List PLC) :
    connectsOf (sweepTrace net plcs) = plcs.map PLC.name := by
  induction plcs with
  | nil => rfl
  | cons p ps ih =>
    rw [sweepTrace_cons, connectsOf_append, connectsOf_deviceTrace, ih,
      List.map_cons]
    rfl

theorem connectsOf_runSweeps_length (net : Net) (plcs : List PLC) (n : Nat) :
    (connectsOf (runSweeps net plcs n)).length = n * plcs.length := by
  induction n with
  | zero => simp [runSweeps, connectsOf]
  | succ n ih =>
    rw [runSweeps, connectsOf_append, List.length_append, connectsOf_sweepTrace,
      List.length_map, ih, Nat.succ_mul]
    omega

theorem parseQueryEntry_keeps (q a c : List Char)
    (hsplit : pySplit ',' (pyStrip q) = [a, c])
    (hda : pyIsDigitStr a = true) (hdc : pyIsDigitStr c = true) :
    parseQueryEntry q = some ⟨pyInt a, pyInt c⟩ := by
  have hne : (pyStrip q).isEmpty = false := by
    cases hq : pyStrip q with
    | nil => rw [hq] at hsplit; simp [pySplit] at hsplit
    | cons x xs => simp [hq]
  simp [parseQueryEntry, hne, hsplit, hda, hdc]

theorem connect_and_readTrace_connected (net : Net) (dev : PLC)
    (h : net.connectOk dev.ip dev.port = true) :
    connect_and_readTrace net dev =
      Event.connectEv dev.name true ::
        ((Ip.read_holding_registersT (net.devResp dev.ip dev.port) dev.reads).1.map
            (fun rc => Event.readReqEv dev.name rc.1 rc.2) ++
         [Event.closeEv dev.name]) := by
  simp [connect_and_readTrace, h]

theorem sweepMessages_eq (nowMs : Nat) (net : Net) (plcs : List PLC) :
    sweepMessages nowMs net plcs =
      (plcs.map (fun plc =>
        if net.connectOk plc.ip plc.port then
          (okResults (Tcp.read_holding_registers (net.devResp plc.ip plc.port) plc.reads)).map
            (fun av => publish_to_aws_payload nowMs plc.name av.1 av.2)
        else [])).flatten := by
  unfold sweepMessages
  rw [publishesOf_sweepTrace, List.map_flatten, List.map_map]
  refine congrArg List.flatten (List.map_congr_left ?_)
  intro plc _
  by_cases h : net.connectOk plc.ip plc.port
  · simp [h, List.map_map, Function.comp, publish_to_aws_payload]
  · simp [h]

/-! ## Claim theorems -/

/-- C1: for every client and list of read specifications, both readers
return exactly one result per spec, in input order (the result
addresses list the spec addresses in order), with as many `Err`
entries as there are faulting specs — so one failing spec never
prevents the evaluation of any later spec; in particular a list with
exactly one faulting spec yields a result list of the same length with
exactly one `Err`. -/
theorem c1_reader_per_spec_isolation :
    ∀ (client : Nat → Nat → ClientResp) (specs : List ReadSpec),
      (Tcp.read_holding_registers client specs).length = specs.length
      ∧ (Tcp.read_holding_registers client specs).map ReadResult.address
          = specs.map ReadSpec.address
      ∧ (Tcp.read_holding_registers client specs).countP isErrResult
          = specs.countP (fun s => isFaultResp (client s.address s.count))
      ∧ (Ip.read_holding_registers client specs).length = specs.length
      ∧ (Ip.read_holding_registers client specs).map ReadResult.address
          = specs.map ReadSpec.address
      ∧ (Ip.read_holding_registers client specs).countP isErrResult
          = specs.countP (fun s => isFaultResp (client s.address s.count))
      ∧ (specs.countP (fun s => isFaultResp (client s.address s.count)) = 1 →
          (Tcp.read_holding_registers client specs).length = specs.length
          ∧ (Tcp.read_holding_registers client specs).countP isErrResult = 1) := by
  intro client specs
  have hlenT : (Tcp.read_holding_registers client specs).length = specs.length := by
    rw [tcp_read_eq, List.length_map]
  have haddrT : (Tcp.read_holding_registers client specs).map ReadResult.address
      = specs.map ReadSpec.address := by
    rw [tcp_read_eq, List.map_map]
    refine List.map_congr_left ?_
    intro s _
    exact tcp_classify_address s.address (client s.address s.count)
  have hcntT : (Tcp.read_holding_registers client specs).countP isErrResult
      = specs.countP (fun s => isFaultResp (client s.address s.count)) := by
    rw [tcp_read_eq, List.countP_map]
    refine List.countP_congr ?_
    intro s _
    simp only [Function.comp_apply]
    rw [tcp_classify_isErr]
  have hlenI : (Ip.read_holding_registers client specs).length = specs.length := by
    rw [ip_read_eq, List.length_map]
  have haddrI : (Ip.read_holding_registers client specs).map ReadResult.address
      = specs.map ReadSpec.address := by
    rw [ip_read_eq, List.map_map]
    refine List.map_congr_left ?_
    intro s _
    exact ip_classify_address s.address (client s.address s.count)
  have hcntI : (Ip.read_holding_registers client specs).countP isErrResult
      = specs.countP (fun s => isFaultResp (client s.address s.count)) := by
    rw [ip_read_eq, List.countP_map]
    refine List.countP_congr ?_
    intro s _
    simp only [Function.comp_apply]
    rw [ip_classify_isErr]
  exact ⟨hlenT, haddrT, hcntT, hlenI, haddrI, hcntI,
    fun h => ⟨hlenT, by rw [hcntT, h]⟩⟩

/-- Witness for C1: a client faulting exactly at address 1, three
specs: the reader returns three results with exactly one error. -/
theorem c1_reader_per_spec_isolation_witness :
    (([⟨0, 1⟩, ⟨1, 1⟩, ⟨2, 1⟩] : List ReadSpec).countP
        (fun s => isFaultResp (clientFault1 s.address s.count)) = 1)
    ∧ ((Tcp.read_holding_registers clientFault1 [⟨0, 1⟩, ⟨1, 1⟩, ⟨2, 1⟩]).length
          = ([⟨0, 1⟩, ⟨1, 1⟩, ⟨2, 1⟩] : List ReadSpec).length
      ∧ (Tcp.read_holding_registers clientFault1
          [⟨0, 1⟩, ⟨1, 1⟩, ⟨2, 1⟩]).countP isErrResult = 1) :=
  ⟨by decide,
   (c1_reader_per_spec_isolation clientFault1 [⟨0, 1⟩, ⟨1, 1⟩, ⟨2, 1⟩]).2.2.2.2.2.2
     (by decide)⟩

/-- C2: a successfully opened session is always closed, exactly once,
as the last action for that device — in tcp.py's polling loop and in
ip.py's `connect_and_read` the per-device trace is the successful
connect, then only read/publish events, then a single close — and
over any number of sweeps at most one session is ever open at a
time. -/
theorem c2_session_scoped_close_single_open :
    ∀ (net : Net) (plcs : List PLC) (n : Nat) (plc : PLC),
      (net.connectOk plc.ip plc.port = true →
        ∃ mid, deviceTrace net plc
            = Event.connectEv plc.name true :: (mid ++ [Event.closeEv plc.name])
          ∧ ∀ e ∈ mid, neutralEv e = true)
      ∧ (net.connectOk plc.ip plc.port = true →
        ∃ mid, connect_and_readTrace net plc
            = Event.connectEv plc.name true :: (mid ++ [Event.closeEv plc.name])
          ∧ ∀ e ∈ mid, neutralEv e = true)
      ∧ maxOpen 0 (runSweeps net plcs n) ≤ 1 := by
  intro net plcs n plc
  refine ⟨?_, ?_, maxOpen_runSweeps net plcs n⟩
  · intro h
    refine ⟨(Tcp.read_holding_registersT (net.devResp plc.ip plc.port) plc.reads).1.map
        (fun rc => Event.readReqEv plc.name rc.1 rc.2) ++
      (Tcp.read_holding_registersT (net.devResp plc.ip plc.port) plc.reads).2.filterMap
        (fun r =>
          match r.error, r.values with
          | none, some vs =>
            some (Event.publishEv plc.name r.address vs
                   (!net.publishRaises plc.name r.address vs))
          | _, _ => none), ?_, ?_⟩
    · rw [deviceTrace_connected net plc h, List.append_assoc]
    · intro e he
      rcases List.mem_append.mp he with hm | hf
      · exact readReq_map_neutral plc.name _ e hm
      · exact publish_filterMap_neutral net plc.name _ e hf
  · intro h
    refine ⟨(Ip.read_holding_registersT (net.devResp plc.ip plc.port) plc.reads).1.map
        (fun rc => Event.readReqEv plc.name rc.1 rc.2), ?_, ?_⟩
    · rw [connect_and_readTrace_connected net plc h]
    · intro e he
      exact readReq_map_neutral plc.name _ e he

/-- Witness for C2: the always-connecting world with the scenario
device. -/
theorem c2_session_scoped_close_single_open_witness :
    (∃ mid, deviceTrace netA plcA
        = Event.connectEv plcA.name true :: (mid ++ [Event.closeEv plcA.name])
      ∧ ∀ e ∈ mid, neutralEv e = true)
    ∧ maxOpen 0 (runSweeps netA [plcA] 1) ≤ 1 :=
  ⟨(c2_session_scoped_close_single_open netA [plcA] 1 plcA).1 rfl,
   (c2_session_scoped_close_single_open netA [plcA] 1 plcA).2.2⟩

/-- C3: in every sweep the publish attempts are exactly one per
successful read result and none for an error result, in the
Scheduler's order — devices in store order, addresses in read order —
with no reordering or batching. -/
theorem c3_publisher_one_attempt_per_ok_in_order :
    ∀ (net : Net) (plcs : List PLC),
      publishesOf (sweepTrace net plcs) =
        (plcs.map (fun plc =>
          if net.connectOk plc.ip plc.port then
            (okResults (Tcp.read_holding_registers (net.devResp plc.ip plc.port) plc.reads)).map
              (fun av => (plc.name, av.1, av.2))
          else [])).flatten :=
  fun net plcs => publishesOf_sweepTrace net plcs

/-- C4: a device whose connect attempt fails contributes no read
request and no publish attempt to the sweep — its whole trace is the
failed attempt and the socket close, with no second attempt — and
every sweep performs exactly one connect attempt per configured
device, in store order, whatever set of devices is unreachable. -/
theorem c4_connect_failure_skips_device_sweep_completes :
    ∀ (net : Net) (plcs : List PLC) (plc : PLC),
      (net.connectOk plc.ip plc.port = false →
        deviceTrace net plc = [Event.connectEv plc.name false, Event.closeEv plc.name])
      ∧ connectsOf (sweepTrace net plcs) = plcs.map PLC.name :=
  fun net plcs plc =>
    ⟨fun h => deviceTrace_disconnected net plc h, connectsOf_sweepTrace net plcs⟩

/-- Witness for C4: an unreachable world with the scenario device. -/
theorem c4_connect_failure_skips_device_sweep_completes_witness :
    deviceTrace netNone plcA
        = [Event.connectEv plcA.name false, Event.closeEv plcA.name]
    ∧ connectsOf (sweepTrace netNone [plcA]) = [plcA].map PLC.name :=
  ⟨(c4_connect_failure_skips_device_sweep_completes netNone [plcA] plcA).1 rfl,
   (c4_connect_failure_skips_device_sweep_completes netNone [plcA] plcA).2⟩

/-- C5 counterexample: a run whose configuration phase succeeds but
whose MQTT connect attempt fails exits with code 1 — a fatal non-zero
exit that is not a ConfigurationError, refuting the claim that a
ConfigurationError is the only fatal non-zero-exit failure. -/
theorem c5_counterexample_mqtt_failure_exits :
    mainRun (Except.ok startupA) (Except.error "connection refused") netNone 1
        = RunOutcome.exited 1
    ∧ (1 : Nat) ≠ 0 :=
  ⟨rfl, by decide⟩

/-- C5 (amended): no failure arising during polling aborts a sweep or
terminates the process — once the loop is entered every sweep
performs one connect attempt per device whatever the world does — and
the fatal non-zero exits are exactly the two pre-polling failures:
a configuration error or an outbound-channel (MQTT) connect failure,
both detected before the first sweep, always with exit code 1. -/
theorem c5_amended_fatal_exits_only_before_polling :
    ∀ (cfg : Except ConfigError StartupConfig) (mqtt : Except String Unit)
      (net : Net) (n : Nat),
      ((∃ code, mainRun cfg mqtt net n = RunOutcome.exited code) ↔
        ((∃ e, cfg = Except.error e) ∨ (∃ m, mqtt = Except.error m)))
      ∧ (∀ code, mainRun cfg mqtt net n = RunOutcome.exited code → code = 1)
      ∧ (∀ c, cfg = Except.ok c → ∀ u, mqtt = Except.ok u →
          mainRun cfg mqtt net n = RunOutcome.polling (runSweeps net c.plcs n)
          ∧ (connectsOf (runSweeps net c.plcs n)).length = n * c.plcs.length) := by
  intro cfg mqtt net n
  refine ⟨?_, ?_, ?_⟩
  · cases cfg with
    | error e => simp [mainRun]
    | ok c =>
      cases mqtt with
      | error m => simp [mainRun]
      | ok u => simp [mainRun]
  · intro code h
    cases cfg with
    | error e => simp [mainRun] at h; omega
    | ok c =>
      cases mqtt with
      | error m => simp [mainRun] at h; omega
      | ok u => simp [mainRun] at h
  · intro c hc u hm
    subst hc
    subst hm
    exact ⟨rfl, connectsOf_runSweeps_length net c.plcs n⟩

/-- Witness for C5 (amended): with a good configuration and a good
channel, the loop is entered and the single sweep attempts the single
configured device exactly once. -/
theorem c5_amended_fatal_exits_only_before_polling_witness :
    mainRun (Except.ok startupA) (Except.ok ()) netNone 1
        = RunOutcome.polling (runSweeps netNone startupA.plcs 1)
    ∧ (connectsOf (runSweeps netNone startupA.plcs 1)).length
        = 1 * startupA.plcs.length :=
  (c5_amended_fatal_exits_only_before_polling (Except.ok startupA)
    (Except.ok ()) netNone 1).2.2 startupA rfl () rfl

/-- C6 counterexample: the entry `5,0` — two digit strings with a zero
count — is kept by the configuration parsing, so a device record whose
`reads` list contains a ReadSpec with `count = 0` reaches the polling
core, refuting the claim that count-zero entries are rejected. -/
theorem c6_counterexample_zero_count_reaches_core :
    load_plcs_from_config
        [⟨"PLC1", "dev1", "10.0.0.1", none, some "5,0".toList⟩]
      = [{ name := "dev1", ip := "10.0.0.1", port := 502, reads := [⟨5, 0⟩] }]
    ∧ (⟨5, 0⟩ : ReadSpec).count = 0 := by
  constructor
  · decide
  · rfl

/-- C6 (amended): the configuration parsing keeps every entry whose
stripped text splits on the comma into exactly two digit strings,
whatever the count value — it enforces no `count >= 1` floor — so
ReadSpecs with `count = 0` can reach the device records handed to the
polling core. -/
theorem c6_amended_parser_has_no_count_floor :
    (∀ (q a c : List Char), pySplit ',' (pyStrip q) = [a, c] →
        pyIsDigitStr a = true → pyIsDigitStr c = true →
        parseQueryEntry q = some ⟨pyInt a, pyInt c⟩)
    ∧ parseQueries "5,0".toList = [⟨5, 0⟩]
    ∧ (load_plcs_from_config
          [⟨"PLC1", "dev1", "10.0.0.1", none, some "5,0".toList⟩]).map PLC.reads
        = [[⟨5, 0⟩]] :=
  ⟨parseQueryEntry_keeps, by decide, by decide⟩

/-- Witness for C6 (amended): the entry `7,0` splits into the digit
strings `7` and `0` and is kept with count 0. -/
theorem c6_amended_parser_has_no_count_floor_witness :
    pySplit ',' (pyStrip "7,0".toList) = ["7".toList, "0".toList]
    ∧ parseQueryEntry "7,0".toList = some ⟨7, 0⟩ :=
  ⟨by decide,
   (c6_amended_parser_has_no_count_floor).1 "7,0".toList "7".toList "0".toList
     (by decide) (by decide) (by decide)⟩

/-- C7: parsing a queries string keeps, in input order, exactly the
semicolon-separated entries accepted by the per-entry filter (two
comma-separated digit fields), dropping all others; parsing
`0,2;1,2` yields the two specs `(0,2)` and `(1,2)`, and re-serializing
that list yields the same string. -/
theorem c7_queries_parse_round_trip :
    (∀ q : List Char, parseQueries q = (pySplit ';' q).filterMap parseQueryEntry)
    ∧ parseQueries "0,2;1,2".toList = [⟨0, 2⟩, ⟨1, 2⟩]
    ∧ serializeQueries [⟨0, 2⟩, ⟨1, 2⟩] = "0,2;1,2".toList :=
  ⟨parseQueries_eq_filterMap, by decide, by decide⟩

/-- C8: for every client and spec list, both readers issue exactly one
read-holding-registers request per spec, in order — the request trace
is the spec list itself, with no retry whatever the responses — and
within a sweep a connected device receives exactly one request per
configured spec (and an unreachable one receives none). -/
theorem c8_one_request_per_spec_no_retry :
    ∀ (client : Nat → Nat → ClientResp) (specs : List ReadSpec)
      (net : Net) (plc : PLC),
      (Tcp.read_holding_registersT client specs).1
          = specs.map (fun s => (s.address, s.count))
      ∧ (Ip.read_holding_registersT client specs).1
          = specs.map (fun s => (s.address, s.count))
      ∧ readReqsOf (deviceTrace net plc)
          = (if net.connectOk plc.ip plc.port then
              plc.reads.map (fun s => (plc.name, s.address, s.count))
            else []) := by
  intro client specs net plc
  refine ⟨?_, ?_, readReqsOf_deviceTrace net plc⟩
  · rw [tcp_readT_eq]
  · rw [ip_readT_eq]

/-- C9: the payload built for a successful read has exactly the four
fields timestamp, plc_name, register_address and value; each sweep
hands one such message per successful read result to the channel, in
order; the scenario device `A` reading `[7, 42]` at address 0 yields
exactly one message with those fields. -/
theorem c9_one_message_per_ok_with_exact_fields :
    ∀ (nowMs : Nat) (net : Net) (plcs : List PLC) (nm : String)
      (a : Nat) (vs : List Nat),
      publish_to_aws_payload nowMs nm a vs
          = { timestamp := nowMs, plc_name := nm, register_address := a, value := vs }
      ∧ sweepMessages nowMs net plcs
          = (plcs.map (fun plc =>
              if net.connectOk plc.ip plc.port then
                (okResults (Tcp.read_holding_registers (net.devResp plc.ip plc.port) plc.reads)).map
                  (fun av => publish_to_aws_payload nowMs plc.name av.1 av.2)
              else [])).flatten
      ∧ sweepMessages nowMs netA [plcA]
          = [{ timestamp := nowMs, plc_name := "A", register_address := 0,
               value := [7, 42] }] :=
  fun nowMs net plcs nm a vs =>
    ⟨rfl, sweepMessages_eq nowMs net plcs, rfl⟩

/-- C10: a device whose `reads` list is empty is still polled: the
sweep opens and closes its connection with zero read requests and zero
publish attempts, the reader returns the empty result list, and a
section with an empty queries string is kept at load time as a device
record with an empty `reads` list. -/
theorem c10_empty_reads_device_still_polled :
    ∀ (net : Net) (plc : PLC) (client : Nat → Nat → ClientResp),
      (plc.reads = [] → net.connectOk plc.ip plc.port = true →
        deviceTrace net plc
          = [Event.connectEv plc.name true, Event.closeEv plc.name])
      ∧ Tcp.read_holding_registers client [] = []
      ∧ load_plcs_from_config [⟨"P1", "dev9", "10.0.0.9", none, some []⟩]
          = [{ name := "dev9", ip := "10.0.0.9", port := 502, reads := [] }] := by
  intro net plc client
  refine ⟨?_, rfl, by decide⟩
  intro hr h
  rw [deviceTrace_connected net plc h, hr]
  rfl

/-- Witness for C10: the always-connecting world with the
empty-reads device. -/
theorem c10_empty_reads_device_still_polled_witness :
    deviceTrace netA plcE
        = [Event.connectEv plcE.name true, Event.closeEv plcE.name] :=
  (c10_empty_reads_device_still_polled netA plcE clientFault1).1 rfl rfl
